import Mathlib

/-!
Verification development for the pier-client-ethereum appchain plugin.

The definitions below are a shallow embedding of the Go sources:
`src/unnamed/part_000` (the client: SubmitIBTP, SubmitReceipt, the
retrying invoke helpers, waitForConfirmed, SubmitOffChainData) and
`src/event.go` (event-to-IBTP conversion).  Machine integers are
modelled as `Nat`/`Int` with explicit wrapping where the Go code uses
fixed-width arithmetic; fallible operations return `Option`/`Except`;
external collaborators (the ledger session, the RPC node, the file
system) are passed in as oracle functions.
-/

namespace PierClientEth

/-- A Go byte slice: a list of byte values. -/
abbrev Bytes := List Nat

/-- UTF-8 encoding of one character (the bytes Go produces for it in a
string), written out so that it evaluates inside the kernel. -/
def charUtf8 (c : Char) : List Nat :=
  let n := c.toNat
  if n < 128 then [n]
  else if n < 2048 then [192 + n / 64, 128 + n % 64]
  else if n < 65536 then [224 + n / 4096, 128 + (n / 64) % 64, 128 + n % 64]
  else [240 + n / 262144, 128 + (n / 4096) % 64, 128 + (n / 64) % 64, 128 + n % 64]

/-- Go `[]byte(s)`: the UTF-8 bytes of a string. -/
def strBytes (s : String) : Bytes := (s.toList.map charUtf8).flatten

/-- Go `strings.Split` for a one-character separator, over the character
list of the string: splitting the empty text yields one empty piece, as
in Go. -/
def splitOnChar (sep : Char) : List Char → List (List Char)
  | [] => [[]]
  | c :: rest =>
    let r := splitOnChar sep rest
    if c = sep then [] :: r
    else
      match r with
      | [] => [[c]]
      | g :: gs => (c :: g) :: gs

/-- Go `strings.Split(s, ",")`. -/
def splitComma (s : String) : List String :=
  (splitOnChar ',' s.toList).map (fun cs => String.mk cs)

/-- handleArgs (src/event.go lines 29-36): split the comma-joined
argument string and convert every piece to its bytes. -/
def handleArgs (args : String) : List Bytes := (splitComma args).map strBytes

/-- The fields of a BrokerThrowEvent that encryptPayload reads
(src/event.go): source/destination contract ids, the comma-joined
`Funcs` string and the comma-joined `Args` string. -/
structure BrokerThrowEvent where
  fid : String
  tid : String
  funcs : String
  args : String
deriving Repr, DecidableEq

/-- The pb.Content record built by encryptPayload (src/event.go
lines 44-53). -/
structure Content where
  srcContractId : String
  dstContractId : String
  func : String
  args : List Bytes
  callback : String
  argsCb : List Bytes
  rollback : String
  argsRb : List Bytes
deriving Repr, DecidableEq

/-- encryptPayload (src/event.go lines 38-53), up to the final protobuf
marshalling: split `ev.Funcs` on commas, require exactly three pieces
(call, callback, rollback), and build the Content record.  All three
argument lists are produced by `handleArgs ev.Args`. -/
def encryptContent (ev : BrokerThrowEvent) : Option Content :=
  match splitComma ev.funcs with
  | [f0, f1, f2] =>
      some { srcContractId := ev.fid
             dstContractId := ev.tid
             func := f0
             args := handleArgs ev.args
             callback := f1
             argsCb := handleArgs ev.args
             rollback := f2
             argsRb := handleArgs ev.args }
  | _ => none

/-- A go-ethereum types.Receipt, reduced to the status field the client
inspects. -/
structure GoReceipt where
  status : Nat
deriving Repr, DecidableEq

/-- go-ethereum types.ReceiptStatusSuccessful. -/
def ReceiptStatusSuccessful : Nat := 1

/-- The pb.SubmitIBTPResponse fields the client fills in. -/
structure SubmitResp where
  status : Bool
  message : String
deriving Repr, DecidableEq

/-- Error message constant from src/unnamed/part_000 line 57. -/
def SubmitReceiptErr : String := "SubmitReceipt tx execution failed"

/-- Error message constant from src/unnamed/part_000 line 56. -/
def SubmitIBTPErr : String := "SubmitIBTP tx execution failed"

/-- pb.TransactionStatus values that a BxhProof can carry. -/
inductive TxStatus where
  | BEGIN
  | SUCCESS
  | FAILURE
  | ROLLBACK
deriving Repr, DecidableEq

/-- The pb.Result fields SubmitReceipt reads: the per-subtransaction
data groups and the multiStatus list. -/
structure BxhResult where
  data : List (List Bytes)
  multiStatus : List Bool
deriving Repr, DecidableEq

/-- Which ledger-session call path SubmitReceipt took. -/
inductive ReceiptPath where
  | multi
  | single
deriving Repr, DecidableEq

/-- SubmitReceipt (src/unnamed/part_000 lines 280-316), after the
off-chain precheck: convert `result.Data` to raw groups, then route to
`InvokeMultiReceipt` when `len(result.MultiStatus) > 1` or
`len(result.MultiStatus) == 0 && proof.TxStatus != BEGIN`, otherwise
to `invokeReceipt`.  The two invoke calls are oracles; the returned
pair records the response the caller receives and the chosen path. -/
def submitReceipt
    (invokeMultiR : List (List Bytes) → List Bool → Except String GoReceipt)
    (invokeSingleR : List (List Bytes) → Except String GoReceipt)
    (result : BxhResult) (ts : TxStatus) : SubmitResp × ReceiptPath :=
  let results := result.data
  if result.multiStatus.length > 1 ∨ (result.multiStatus.length = 0 ∧ ts ≠ TxStatus.BEGIN) then
    match invokeMultiR results result.multiStatus with
    | Except.error e => (⟨false, e⟩, ReceiptPath.multi)
    | Except.ok rc =>
        if rc.status ≠ ReceiptStatusSuccessful then (⟨false, SubmitReceiptErr⟩, ReceiptPath.multi)
        else (⟨true, ""⟩, ReceiptPath.multi)
  else
    match invokeSingleR results with
    | Except.error e => (⟨false, e⟩, ReceiptPath.single)
    | Except.ok rc =>
        if rc.status ≠ ReceiptStatusSuccessful then (⟨false, SubmitReceiptErr⟩, ReceiptPath.single)
        else (⟨true, ""⟩, ReceiptPath.single)

/-- A receipt-invoke oracle that always succeeds, for concrete runs. -/
def okInvokeMultiR : List (List Bytes) → List Bool → Except String GoReceipt :=
  fun _ _ => Except.ok ⟨1⟩

/-- A single-receipt-invoke oracle that always succeeds, for concrete runs. -/
def okInvokeSingleR : List (List Bytes) → Except String GoReceipt :=
  fun _ => Except.ok ⟨1⟩

/-- Go `binary.BigEndian.Uint64(b)`: the first eight bytes read
big-endian; fewer than eight bytes is a runtime panic (`none`). -/
def beUint64 (b : Bytes) : Option Nat :=
  if b.length < 8 then none
  else some ((b.take 8).foldl (fun acc x => acc * 256 + x % 256) 0)

/-- Go conversion `int64(u)` (and `int(u)` on a 64-bit platform) of a
uint64 value: two's-complement reinterpretation. -/
def toInt64 (u : Nat) : Int :=
  if u % 2 ^ 64 < 2 ^ 63 then ((u % 2 ^ 64 : Nat) : Int)
  else ((u % 2 ^ 64 : Nat) : Int) - 2 ^ 64

/-- The format-error message of SubmitIBTP (src/unnamed/part_000 line
209). -/
def formatErrMsg : String := "format error for IBTP carrying multiple transactions"

/-- Record of the ledger-session invoke SubmitIBTP performed. -/
inductive CallRec where
  | multi (groups : List (List Bytes))
  | single (args : List Bytes)
deriving Repr, DecidableEq

/-- Outcome of SubmitIBTP: a (response, go-error) return together with
the record of the invoke performed (if any), or a Go runtime panic. -/
inductive SubmitOut where
  | ret (resp : SubmitResp) (goErr : Option String) (call : Option CallRec)
  | panicked
deriving Repr, DecidableEq

/-- The invoke record carried by a SubmitIBTP outcome. -/
def SubmitOut.callRec : SubmitOut → Option CallRec
  | .ret _ _ c => c
  | .panicked => none

/-- The grouping loop of SubmitIBTP (src/unnamed/part_000 lines
212-216): `for i := 2; i < len(content.Args); { Args =
append(Args, content.Args[i:i+num]); i += num }`, expressed on the
already-stripped trailing argument list: repeatedly take `num`
elements.  (The Go loop is only reached with `num` dividing the length;
the `0` equation mirrors that a zero step would never terminate and is
never exercised.) -/
def goChunk {α : Type} : Nat → List α → List (List α)
  | _, [] => []
  | 0, a :: as => [a :: as]
  | n + 1, a :: as => (a :: as).take (n + 1) :: goChunk (n + 1) ((a :: as).drop (n + 1))
termination_by _ l => l.length
decreasing_by simp [List.length_drop]; omega

/-- SubmitIBTP (src/unnamed/part_000 lines 195-249), after the
off-chain precheck, with the ledger session calls
`InvokeMultiInterchain` and `invokeInterchain` as oracles over the
already serialized data.  The leading argument is decoded big-endian
and compared with the `Multi` enum value `multiTy` (a constant of the
external pb package); on the multi path the group size is decoded from
the second argument as a Go `int`, `lenArgs % num` raises a runtime
panic when `num = 0`, a non-zero remainder returns the format error
with the response left at `Status = true`, and otherwise the trailing
arguments are grouped and forwarded; a negative `num` whose remainder
is zero panics on the slice bounds as soon as the loop body runs. -/
def submitIBTP (multiTy : Int)
    (invokeMulti : List (List Bytes) → Except String GoReceipt)
    (invokeSingle : List Bytes → Except String GoReceipt)
    (args : List Bytes) : SubmitOut :=
  match args with
  | [] => SubmitOut.panicked
  | a0 :: rest0 =>
    match beUint64 a0 with
    | none => SubmitOut.panicked
    | some t =>
      if toInt64 t = multiTy then
        match rest0 with
        | [] => SubmitOut.panicked
        | a1 :: _ =>
          match beUint64 a1 with
          | none => SubmitOut.panicked
          | some u =>
            let num : Int := toInt64 u
            let lenArgs : Int := (args.length : Int) - 2
            if num = 0 then SubmitOut.panicked
            else if lenArgs.tmod num ≠ 0 then
              SubmitOut.ret ⟨true, ""⟩ (some formatErrMsg) none
            else if num < 0 ∧ 2 < args.length then SubmitOut.panicked
            else
              let groups := goChunk num.toNat (args.drop 2)
              match invokeMulti groups with
              | Except.error e => SubmitOut.ret ⟨false, e⟩ none (some (CallRec.multi groups))
              | Except.ok rc =>
                  if rc.status ≠ ReceiptStatusSuccessful then
                    SubmitOut.ret ⟨false, SubmitIBTPErr⟩ none (some (CallRec.multi groups))
                  else SubmitOut.ret ⟨true, ""⟩ none (some (CallRec.multi groups))
      else
        match invokeSingle rest0 with
        | Except.error e => SubmitOut.ret ⟨false, e⟩ none (some (CallRec.single rest0))
        | Except.ok rc =>
            if rc.status ≠ ReceiptStatusSuccessful then
              SubmitOut.ret ⟨false, SubmitIBTPErr⟩ none (some (CallRec.single rest0))
            else SubmitOut.ret ⟨true, ""⟩ none (some (CallRec.single rest0))

/-- A multi-invoke oracle that always succeeds, for concrete runs. -/
def okInvokeMulti : List (List Bytes) → Except String GoReceipt := fun _ => Except.ok ⟨1⟩

/-- A single-invoke oracle that always succeeds, for concrete runs. -/
def okInvokeSingle : List Bytes → Except String GoReceipt := fun _ => Except.ok ⟨1⟩

/-- A multi-type argument list: type tag 77, group size 2, six trailing
arguments (the spec scenario with num=2). -/
def multiArgsSample : List Bytes :=
  [[0, 0, 0, 0, 0, 0, 0, 77], [0, 0, 0, 0, 0, 0, 0, 2], [1], [2], [3], [4], [5], [6]]

/-- A multi-type argument list whose decoded group size is zero and
which carries one trailing argument. -/
def zeroNumArgs : List Bytes :=
  [[0, 0, 0, 0, 0, 0, 0, 77], [0, 0, 0, 0, 0, 0, 0, 0], [9]]

/-- A multi-type argument list with group size 2 but three trailing
arguments (not divisible). -/
def badNumArgs : List Bytes :=
  [[0, 0, 0, 0, 0, 0, 0, 77], [0, 0, 0, 0, 0, 0, 0, 2], [1], [2], [3]]

/-- The marker text that classifies a ledger error as a permanent
contract revert (src/unnamed/part_000 lines 341, 404, 458, 509, 560). -/
def revertMarker : String := "execution reverted"

/-- Whether the first character list is a leading segment of the second. -/
def seqStarts : List Char → List Char → Bool
  | [], _ => true
  | _ :: _, [] => false
  | a :: as, b :: bs => a == b && seqStarts as bs

/-- Whether the first character list occurs contiguously inside the
second (Go `strings.Contains` on the underlying text). -/
def seqContains (sub : List Char) : List Char → Bool
  | [] => sub.isEmpty
  | c :: cs => seqStarts sub (c :: cs) || seqContains sub cs

/-- Go `strings.Contains(e, "execution reverted")`. -/
def containsRevert (e : String) : Bool := seqContains revertMarker.toList e.toList

/-- The retry loop shared verbatim by invokeInterchain,
InvokeMultiInterchain, invokeReceipt, InvokeMultiReceipt and
SubmitIBTPBatch (src/unnamed/part_000 lines 376-410 etc.), over the
Rican7 retry library with `strategy.Wait`: run the attempt; a nil error
stops the loop; a revert-marked error makes the retry body return nil
(stopping the loop with `txErr` still set); any other error retries.
`outcomes a` is the error of attempt `a` (`none` = success); the fuel
bounds the unbounded Go loop, `none` meaning it is still retrying.  On
termination the result is (number of attempts performed, final txErr). -/
def retryAttempts (outcomes : Nat → Option String) : Nat → Nat → Option (Nat × Option String)
  | _, 0 => none
  | a, fuel + 1 =>
    match outcomes a with
    | none => some (a + 1, none)
    | some e =>
        if containsRevert e then some (a + 1, some e)
        else retryAttempts outcomes (a + 1) fuel

/-- The caller-visible outcome of one mutating submission: the retry
loop above followed by the error surfacing common to SubmitIBTP,
SubmitReceipt and SubmitIBTPBatch (src/unnamed/part_000 lines 218-222,
289-292, 350-354): a final non-nil txErr becomes a response with
`Status = false` and the error text as message, returned with a nil
process-level error; on submission success the receipt status decides
the response. -/
def submitWithRetry (errMsg : String) (outcomes : Nat → Option String) (rc : GoReceipt)
    (fuel : Nat) : Option (SubmitResp × Option String) :=
  (retryAttempts outcomes 0 fuel).map fun r =>
    match r.2 with
    | some e => (⟨false, e⟩, none)
    | none =>
        if rc.status ≠ ReceiptStatusSuccessful then (⟨false, errMsg⟩, none)
        else (⟨true, ""⟩, none)

/-- A sample revert error text as an ethereum node reports it. -/
def revertSample : String := "rpc error: execution reverted: broker denied"

/-- An attempt oracle that reverts on every attempt. -/
def revertOutcomes : Nat → Option String := fun _ => some revertSample

/-- A receipt with successful status. -/
def successReceipt : GoReceipt := ⟨1⟩

/-- Arithmetic modulo 2^64, as Go uint64 operations compute. -/
def wrap64 (n : Nat) : Nat := n % (2 ^ 64)

/-- Go uint64 subtraction `a - b`: wraps around on underflow. -/
def sub64 (a b : Nat) : Nat := wrap64 (wrap64 a + 2 ^ 64 - wrap64 b)

/-- The polling loop of waitForConfirmed (src/unnamed/part_000 lines
707-711): `for c.getBestBlock()-start < c.config.Ether.MinConfirm`.
`heights k` is the best height the k-th getBestBlock call returns
(call 0 recorded `start`); the loop sleeps and re-polls while the
uint64 difference is below `minConfirm`.  The fuel bounds the unbounded
Go loop; the result is the index of the poll at which the loop exited,
or `none` if it is still waiting. -/
def confirmLoop (minConfirm start : Nat) (heights : Nat → Nat) : Nat → Nat → Option Nat
  | _, 0 => none
  | k, fuel + 1 =>
    if sub64 (heights k) start < minConfirm then confirmLoop minConfirm start heights (k + 1) fuel
    else some k

/-- waitForConfirmed's depth wait: record `start := heights 0`, then run
the polling loop from the first re-poll. -/
def confirmExit (minConfirm : Nat) (heights : Nat → Nat) (fuel : Nat) : Option Nat :=
  confirmLoop minConfirm (heights 0) heights 1 fuel

/-- waitForConfirmed (src/unnamed/part_000 lines 701-724): after the
depth wait exits at poll `k`, the transaction receipt is fetched
(retried until available, modelled by the total oracle `receiptAt`)
and returned together with the exit poll index. -/
def waitForConfirmed (minConfirm : Nat) (heights : Nat → Nat) (receiptAt : Nat → GoReceipt)
    (fuel : Nat) : Option (Nat × GoReceipt) :=
  (confirmExit minConfirm heights fuel).map (fun k => (k, receiptAt k))

/-- A receipt oracle returning a fixed successful receipt. -/
def constReceipt : Nat → GoReceipt := fun _ => ⟨1⟩

/-- A best-height trace in which the chain's best height drops from 100
to 50 after submission, as a reorganization or a lagging RPC node can
produce. -/
def dropHeights : Nat → Nat := fun k => if k = 0 then 100 else 50

/-- A monotone, bounded best-height trace that starts at 10 and grows by
one per poll up to 60. -/
def growHeights : Nat → Nat := fun k => 10 + min k 50

/-- A ledger block header, reduced to its block number. -/
structure Header where
  number : Nat
deriving Repr, DecidableEq

/-- The inner loop of listenHeader (src/go.mod lines 97-104):
`for i := currentNum+1; i <= latestHeight-Threshold; i++` runs one
iteration per counter value, and each iteration fetches
`HeaderByNumber(big.NewInt(int64(currentNum)))` — the header at height
currentNum, one below the counter — pushes it onto recvHeaderCh, and
only then increments currentNum.  `getHeader` is the node oracle,
keyed by the int64 value the code passes (a fetch failure, which
aborts the goroutine, is not modelled); `n` is the number of counter
values left. The pair returned is (headers pushed in order, final
currentNum). -/
def listenFetchGo (getHeader : Int → Header) : Nat → Nat → List Header × Nat
  | cur, 0 => ([], cur)
  | cur, n + 1 =>
    let h := getHeader (toInt64 cur)
    let rest := listenFetchGo getHeader (cur + 1) n
    (h :: rest.1, rest.2)

/-- One tick of listenHeader (src/go.mod lines 90-104): query the
latest height, then run the counter from currentNum+1 up to the uint64
difference `latestHeight - Threshold` (which wraps around when
latestHeight < Threshold, making the bound huge). -/
def listenTickGo (getHeader : Int → Header) (cur latest threshold : Nat) : List Header × Nat :=
  listenFetchGo getHeader cur (sub64 latest threshold - cur)

/-- A node oracle under which the header at height h has block number
h (what HeaderByNumber returns for an existing height). -/
def idHeaderOracle : Int → Header := fun h => ⟨h.toNat⟩

/-- An event the poster loop reacts to: a header arriving on the
header-receive channel, or a ticker tick. -/
inductive PoolEvent where
  | recv (h : Header)
  | tick
deriving Repr, DecidableEq

/-- Result of one poster step: the new buffer, the batch passed to
filterLog (if any) and the batch emitted on the metadata channel (if
any). -/
structure PostStepOut where
  buffer : List Header
  filtered : Option (List Header)
  emitted : Option (List Header)
deriving Repr, DecidableEq

/-- One step of postHeaders (src/go.mod lines 58-81): the loop state is
the in-memory headersSet buffer.  A header received on recvHeaderCh is
appended to the buffer.  On a ticker tick, if the buffer is non-empty
the buffer becomes the batch, `c.filterLog(batch)` is invoked on it
(filterLog's own outputs flow to the interchain event channel and are
outside this model; the `filtered` field records the batch it was
given), the buffer is reset to a fresh empty set, and the batch is
serialized and posted on the metadata channel metaC (the `emitted`
field).  A tick with an empty buffer does nothing. -/
def postStep (buffer : List Header) : PoolEvent → PostStepOut
  | PoolEvent.recv h => ⟨buffer ++ [h], none, none⟩
  | PoolEvent.tick =>
      if buffer.isEmpty then ⟨buffer, none, none⟩
      else ⟨[], some buffer, some buffer⟩

/-- The possible outcome tags of a pb.GetDataResponse: the success
value, or any other value carrying the name its String() prints (the
external pb enumeration is kept abstract). -/
inductive RespType where
  | success
  | failure (tag : String)
deriving Repr, DecidableEq

/-- pb.GetDataResponse_Type.String(). -/
def typeStr : RespType → String
  | RespType.success => "DATA_GET_SUCCESS"
  | RespType.failure tag => tag

/-- The pb.GetDataResponse fields SubmitOffChainData reads. -/
structure OffChainResponse where
  typ : RespType
  msg : String
  fromS : String
  toS : String
  index : Nat
  shardSize : Nat
  dataDir : String
deriving Repr, DecidableEq

/-- A file operation SubmitOffChainData performs. -/
inductive FileOp where
  | openOut (path : String)
  | readShard (path : String)
  | writeOut (data : Bytes)
deriving Repr, DecidableEq

/-- The composite shard filename `fmt.Sprintf("%s-%s-%d-%d-%d", from,
to, index, i, shardSize)` (src/unnamed/part_000 line 807). -/
def mkShardName (f t : String) (idx i size : Nat) : String :=
  f ++ "-" ++ t ++ "-" ++ toString idx ++ "-" ++ toString i ++ "-" ++ toString size

/-- filepath.Join for the simple dir/name case. -/
def joinPath (dir name : String) : String := dir ++ "/" ++ name

/-- The shard loop of SubmitOffChainData (src/unnamed/part_000 lines
806-821): for shard index `i` from 1 to shardSize, open the shard file
named by the composite key inside the response's data directory, read
its bytes, and append them to the output file; `store` maps a filename
to its content (`none` = open/read failure), `writeOk i` tells whether
the output write for shard `i` succeeds, `n` counts the remaining
iterations (`size + 1 - i` at entry), `acc` is the output file content
so far, and `ops` the file operations performed so far.  Any failure
returns the error immediately. -/
def reassembleSteps (store : String → Option Bytes) (writeOk : Nat → Bool)
    (dir f t : String) (idx size : Nat) :
    Nat → Nat → Bytes → List FileOp → Except String Bytes × List FileOp
  | 0, _, acc, ops => (Except.ok acc, ops)
  | n + 1, i, acc, ops =>
    let p := joinPath dir (mkShardName f t idx i size)
    match store p with
    | none => (Except.error ("open shard " ++ p), ops ++ [FileOp.readShard p])
    | some d =>
        if writeOk i then
          reassembleSteps store writeOk dir f t idx size n (i + 1) (acc ++ d)
            (ops ++ [FileOp.readShard p, FileOp.writeOut d])
        else (Except.error ("write shard " ++ p), ops ++ [FileOp.readShard p, FileOp.writeOut d])

/-- SubmitOffChainData (src/unnamed/part_000 lines 782-826): on the
success outcome the output file, named by the response message plus a
timestamp suffix inside the configured off-chain directory, is opened
(`openOutOk` models that open) and shards 1..shardSize are read and
appended in increasing order; any other outcome performs no file
operation and returns the outcome tag and the response message joined
by a colon. -/
def submitOffChainData (offChainPath now : String) (store : String → Option Bytes)
    (writeOk : Nat → Bool) (openOutOk : Bool) (resp : OffChainResponse) :
    Except String Bytes × List FileOp :=
  match resp.typ with
  | RespType.success =>
      let name := resp.msg ++ "-" ++ now
      let savePath := joinPath offChainPath name
      if openOutOk then
        reassembleSteps store writeOk resp.dataDir resp.fromS resp.toS resp.index resp.shardSize
          resp.shardSize 1 [] [FileOp.openOut savePath]
      else (Except.error ("open output " ++ savePath), [FileOp.openOut savePath])
  | t => (Except.error (typeStr t ++ ":" ++ resp.msg), [])

/-- A shard store holding the two shards of the sample transfer. -/
def shardStoreSample : String → Option Bytes := fun p =>
  if p = joinPath "dd" (mkShardName "a" "b" 0 1 2) then some [1, 2]
  else if p = joinPath "dd" (mkShardName "a" "b" 0 2 2) then some [3]
  else none

/-- The shard contents of the sample transfer. -/
def shardSample : Nat → Bytes := fun i => if i = 1 then [1, 2] else [3]

/-- A write oracle under which every output write succeeds. -/
def allWrites : Nat → Bool := fun _ => true

/-- A successful off-chain response for a two-shard transfer. -/
def offRespSample : OffChainResponse :=
  { typ := RespType.success, msg := "file", fromS := "a", toS := "b", index := 0,
    shardSize := 2, dataDir := "dd" }

/-- An off-chain response with outcome tag "failure" and message
"disk full". -/
def failRespSample : OffChainResponse :=
  { typ := RespType.failure ("failure"), msg := "disk full", fromS := "a", toS := "b", index := 0,
    shardSize := 2, dataDir := "dd" }

/-- A sample broker event with three functions and two arguments. -/
def sampleEvent : BrokerThrowEvent :=
  { fid := "0xF", tid := "0xT", funcs := "interchainCharge,interchainConfirm,interchainRollback",
    args := "alice,100" }

/-- The Content record that `encryptContent` produces for `sampleEvent`. -/
def sampleContent : Content :=
  { srcContractId := "0xF"
    dstContractId := "0xT"
    func := "interchainCharge"
    args := handleArgs sampleEvent.args
    callback := "interchainConfirm"
    argsCb := handleArgs sampleEvent.args
    rollback := "interchainRollback"
    argsRb := handleArgs sampleEvent.args }

end PierClientEth

namespace PierClientEth

/-- C10: every Content built by the event converter has its callback and
rollback argument lists equal to its call argument list, because all
three are `handleArgs ev.Args`. -/
theorem encryptContent_args_all_equal (ev : BrokerThrowEvent) (c : Content)
    (h : encryptContent ev = some c) : c.argsCb = c.args ∧ c.argsRb = c.args := by
  unfold encryptContent at h
  split at h
  · cases h
    exact ⟨rfl, rfl⟩
  · cases h

/-- C10 witness: at the sample event the three argument lists coincide. -/
theorem encryptContent_args_all_equal_witness :
    sampleContent.argsCb = sampleContent.args ∧ sampleContent.argsRb = sampleContent.args :=
  encryptContent_args_all_equal sampleEvent sampleContent (by decide)

/-- C4: SubmitReceipt routes to the multi-receipt path exactly when the
result's multiStatus list has length greater than one, or has length
zero while the proof's transaction status is not BEGIN; and in
particular `multiStatus = [true, false]` routes to the multi path for
every transaction status. -/
theorem submitReceipt_routing
    (invokeMultiR : List (List Bytes) → List Bool → Except String GoReceipt)
    (invokeSingleR : List (List Bytes) → Except String GoReceipt)
    (result : BxhResult) (ts : TxStatus) :
    ((submitReceipt invokeMultiR invokeSingleR result ts).2 = ReceiptPath.multi
      ↔ (result.multiStatus.length > 1 ∨ (result.multiStatus.length = 0 ∧ ts ≠ TxStatus.BEGIN)))
    ∧ (result.multiStatus = [true, false] →
        (submitReceipt invokeMultiR invokeSingleR result ts).2 = ReceiptPath.multi) := by
  constructor
  · unfold submitReceipt
    by_cases hc : result.multiStatus.length > 1 ∨ (result.multiStatus.length = 0 ∧ ts ≠ TxStatus.BEGIN)
    · simp only [if_pos hc]
      constructor
      · intro _; exact hc
      · intro _
        cases invokeMultiR result.data result.multiStatus with
        | error e => rfl
        | ok rc =>
            by_cases hs : rc.status ≠ ReceiptStatusSuccessful
            · simp [hs]
            · simp [hs]
    · simp only [if_neg hc]
      constructor
      · intro hp
        exfalso
        cases hinv : invokeSingleR result.data with
        | error e => rw [hinv] at hp; exact ReceiptPath.noConfusion hp
        | ok rc =>
            rw [hinv] at hp
            by_cases hs : rc.status ≠ ReceiptStatusSuccessful <;> simp [hs] at hp
      · intro hc2; exact absurd hc2 hc
  · intro hms
    unfold submitReceipt
    have hc : result.multiStatus.length > 1 ∨ (result.multiStatus.length = 0 ∧ ts ≠ TxStatus.BEGIN) := by
      left; rw [hms]; decide
    simp only [if_pos hc]
    cases invokeMultiR result.data result.multiStatus with
    | error e => rfl
    | ok rc =>
        by_cases hs : rc.status ≠ ReceiptStatusSuccessful
        · simp [hs]
        · simp [hs]

/-- C4 witness: a result with `multiStatus = [true, false]` routes to the
multi-receipt path even when the transaction status is BEGIN. -/
theorem submitReceipt_routing_witness :
    (submitReceipt okInvokeMultiR okInvokeSingleR ⟨[], [true, false]⟩ TxStatus.BEGIN).2
      = ReceiptPath.multi :=
  (submitReceipt_routing okInvokeMultiR okInvokeSingleR ⟨[], [true, false]⟩ TxStatus.BEGIN).2 rfl

/-- C2: whenever the retry loop reaches an attempt whose error contains
the revert marker, it stops with that error after that one attempt (no
further iterations), and the submission surfaces a response with
`Status = false` carrying the error message together with a nil
process-level error. -/
theorem revert_stops_retry (outcomes : Nat → Option String) (rc : GoReceipt) (errMsg : String)
    (a fuel : Nat) (e : String)
    (h1 : outcomes a = some e) (h2 : containsRevert e = true) :
    retryAttempts outcomes a (fuel + 1) = some (a + 1, some e)
    ∧ (a = 0 → submitWithRetry errMsg outcomes rc (fuel + 1) = some (⟨false, e⟩, none)) := by
  have hr : retryAttempts outcomes a (fuel + 1) = some (a + 1, some e) := by
    unfold retryAttempts
    rw [h1]
    simp [h2]
  refine ⟨hr, ?_⟩
  intro ha
  subst ha
  unfold submitWithRetry
  rw [hr]
  rfl

/-- C2 witness: with every attempt reverting, the loop performs exactly
one attempt and the submission reports a failed outcome with the revert
message and no error. -/
theorem revert_stops_retry_witness :
    retryAttempts revertOutcomes 0 4 = some (1, some revertSample)
    ∧ submitWithRetry SubmitIBTPErr revertOutcomes successReceipt 4
        = some (⟨false, revertSample⟩, none) := by
  have h := revert_stops_retry revertOutcomes successReceipt SubmitIBTPErr 0 3 revertSample
    rfl (by decide)
  exact ⟨h.1, h.2 rfl⟩

/-- If the polling loop of waitForConfirmed exits at poll `k'`, the
uint64 difference between the height observed there and the recorded
start height is at least minConfirm. -/
theorem confirmLoop_exit (minConfirm start : Nat) (heights : Nat → Nat) :
    ∀ fuel k k', confirmLoop minConfirm start heights k fuel = some k' →
      minConfirm ≤ sub64 (heights k') start := by
  intro fuel
  induction fuel with
  | zero => intro k k' h; exact Option.noConfusion h
  | succ n ih =>
      intro k k' h
      unfold confirmLoop at h
      by_cases hc : sub64 (heights k) start < minConfirm
      · rw [if_pos hc] at h
        exact ih (k + 1) k' h
      · rw [if_neg hc] at h
        cases h
        exact Nat.le_of_not_lt hc

/-- Go uint64 subtraction agrees with Nat subtraction when no underflow
occurs: `b ≤ a < 2^64`. -/
theorem sub64_of_le (a b : Nat) (hb : b ≤ a) (ha : a < 2 ^ 64) : sub64 a b = a - b := by
  unfold sub64 wrap64
  have hb' : b < 2 ^ 64 := Nat.lt_of_le_of_lt hb ha
  rw [Nat.mod_eq_of_lt ha, Nat.mod_eq_of_lt hb']
  have h1 : a + 2 ^ 64 - b = (a - b) + 2 ^ 64 := by omega
  rw [h1, Nat.add_mod_right]
  exact Nat.mod_eq_of_lt (by omega)

/-- C1 (amended): provided no polled best height falls below the height
recorded at submission time and all heights stay below 2^64 (no uint64
wraparound), waitForConfirmed queries and returns the receipt only at a
poll whose height has advanced by at least minConfirm blocks past the
submission-time height. -/
theorem waitForConfirmed_depth (minConfirm : Nat) (heights : Nat → Nat)
    (receiptAt : Nat → GoReceipt) (fuel k : Nat) (r : GoReceipt)
    (hmono : ∀ i, heights 0 ≤ heights i)
    (hbound : ∀ i, heights i < 2 ^ 64)
    (h : waitForConfirmed minConfirm heights receiptAt fuel = some (k, r)) :
    heights 0 + minConfirm ≤ heights k := by
  unfold waitForConfirmed at h
  cases hx : confirmExit minConfirm heights fuel with
  | none => rw [hx] at h; exact Option.noConfusion h
  | some k' =>
      rw [hx] at h
      have hk : k' = k := congrArg Prod.fst (Option.some.inj h)
      subst hk
      have hle := confirmLoop_exit minConfirm (heights 0) heights fuel 1 k' hx
      rw [sub64_of_le (heights k') (heights 0) (hmono k') (hbound k')] at hle
      have hm := hmono k'
      omega

/-- C1 witness: with a monotone bounded height trace starting at 10,
the receipt is only returned at a poll whose height is at least
10 + 2 for minConfirm 2. -/
theorem waitForConfirmed_depth_witness :
    growHeights 0 + 2 ≤ growHeights 2 :=
  waitForConfirmed_depth 2 growHeights constReceipt 5 2 ⟨1⟩
    (fun i => by unfold growHeights; omega)
    (fun i => by unfold growHeights; have := Nat.min_le_right i 50; omega)
    (by decide)

/-- Concatenating the groups produced by the grouping loop restores the
grouped list. -/
theorem goChunk_flatten {α : Type} (n : Nat) (l : List α) : (goChunk n l).flatten = l := by
  induction n, l using goChunk.induct with
  | case1 n => simp [goChunk]
  | case2 a as => simp [goChunk]
  | case3 n a as ih => rw [goChunk]; simp only [List.flatten_cons, ih, List.take_append_drop]

/-- When the group size divides the list length, the grouping loop
produces `length / n` groups. -/
theorem goChunk_length {α : Type} (n : Nat) :
    ∀ (k : Nat) (l : List α), l.length = n * k → 0 < n → (goChunk n l).length = k := by
  intro k
  induction k with
  | zero =>
      intro l hl _
      have hnil : l = [] := List.length_eq_zero.mp (by omega)
      subst hnil
      cases n <;> simp [goChunk]
  | succ k ih =>
      intro l hl hn
      obtain ⟨m, rfl⟩ : ∃ m, n = m + 1 := ⟨n - 1, by omega⟩
      cases l with
      | nil => simp at hl
      | cons a as =>
          have hdrop : ((a :: as).drop (m + 1)).length = (m + 1) * k := by
            simp only [List.length_drop, List.length_cons]
            rw [Nat.mul_succ] at hl
            simp only [List.length_cons] at hl
            omega
          rw [goChunk]
          simp only [List.length_cons, ih ((a :: as).drop (m + 1)) hdrop hn]

/-- When the group size divides the list length, every group the loop
produces has exactly `n` elements. -/
theorem goChunk_mem_length {α : Type} (n : Nat) :
    ∀ (k : Nat) (l : List α), l.length = n * k → 0 < n →
      ∀ g ∈ goChunk n l, g.length = n := by
  intro k
  induction k with
  | zero =>
      intro l hl _ g hg
      have hnil : l = [] := List.length_eq_zero.mp (by omega)
      subst hnil
      exfalso
      cases n <;> simp [goChunk] at hg
  | succ k ih =>
      intro l hl hn g hg
      obtain ⟨m, rfl⟩ : ∃ m, n = m + 1 := ⟨n - 1, by omega⟩
      cases l with
      | nil => simp at hl
      | cons a as =>
          rw [goChunk] at hg
          rcases List.mem_cons.mp hg with h1 | h2
          · subst h1
            simp only [List.length_take, List.length_cons]
            rw [Nat.mul_succ] at hl
            simp only [List.length_cons] at hl
            have hmul := Nat.mul_pos (Nat.succ_pos m) (Nat.succ_pos k)
            omega
          · refine ih ((a :: as).drop (m + 1)) ?_ hn g h2
            simp only [List.length_drop, List.length_cons]
            rw [Nat.mul_succ] at hl
            simp only [List.length_cons] at hl
            omega

/-- Go's truncated remainder on two natural numbers is the natural
remainder. -/
theorem tmod_coe (n m : Nat) : Int.tmod (n : Int) (m : Nat) = ((n % m : Nat) : Int) := rfl

/-- The format-error branch of SubmitIBTP (src/unnamed/part_000 lines
204-210): on the multi path with a positive decoded group size that
does not divide the trailing-argument count, the format error is
returned, the response keeps `Status = true`, and no invoke happens. -/
theorem submitIBTP_format_branch (multiTy : Int)
    (invokeMulti : List (List Bytes) → Except String GoReceipt)
    (invokeSingle : List Bytes → Except String GoReceipt)
    (a0 a1 : Bytes) (rest : List Bytes) (t u num : Nat)
    (ht : beUint64 a0 = some t) (hmt : toInt64 t = multiTy)
    (hu : beUint64 a1 = some u) (hnum : toInt64 u = (num : Int)) (hpos : 1 ≤ num)
    (hndvd : ¬ (num ∣ (a0 :: a1 :: rest).length - 2)) :
    submitIBTP multiTy invokeMulti invokeSingle (a0 :: a1 :: rest)
      = SubmitOut.ret ⟨true, ""⟩ (some formatErrMsg) none := by
  have hmod : rest.length % num ≠ 0 := by
    intro hz
    apply hndvd
    have h2 : (a0 :: a1 :: rest).length - 2 = rest.length := by
      simp only [List.length_cons]
      omega
    rw [h2]
    exact Nat.dvd_of_mod_eq_zero hz
  have hn0 : num ≠ 0 := by omega
  unfold submitIBTP
  dsimp only
  rw [ht]
  dsimp only
  rw [hmt, if_pos rfl]
  rw [hu]
  dsimp only
  rw [hnum]
  have h0 : ¬ ((num : Int) = 0) := by exact_mod_cast hn0
  rw [if_neg h0]
  have hlen : ((a0 :: a1 :: rest).length : Int) - 2 = ((rest.length : Nat) : Int) := by
    simp only [List.length_cons]
    push_cast
    ring
  rw [hlen, tmod_coe]
  have hne : ¬ (((rest.length % num : Nat) : Int) = 0) := by
    intro hz
    exact hmod (by exact_mod_cast hz)
  rw [if_pos hne]

/-- The divisible branch of SubmitIBTP's multi path (src/unnamed/
part_000 lines 204-229): with a positive group size dividing the
trailing-argument count, the ledger call performed is one
InvokeMultiInterchain whose argument is the chunked trailing list,
whatever the invoke outcome. -/
theorem submitIBTP_multi_call_branch (multiTy : Int)
    (invokeMulti : List (List Bytes) → Except String GoReceipt)
    (invokeSingle : List Bytes → Except String GoReceipt)
    (a0 a1 : Bytes) (rest : List Bytes) (t u num : Nat)
    (ht : beUint64 a0 = some t) (hmt : toInt64 t = multiTy)
    (hu : beUint64 a1 = some u) (hnum : toInt64 u = (num : Int)) (hpos : 1 ≤ num)
    (hdvd : num ∣ (a0 :: a1 :: rest).length - 2) :
    (submitIBTP multiTy invokeMulti invokeSingle (a0 :: a1 :: rest)).callRec
      = some (CallRec.multi (goChunk num rest)) := by
  have hmod : rest.length % num = 0 := by
    have h2 : (a0 :: a1 :: rest).length - 2 = rest.length := by
      simp only [List.length_cons]
      omega
    rw [h2] at hdvd
    exact Nat.mod_eq_zero_of_dvd hdvd
  have hn0 : num ≠ 0 := by omega
  unfold submitIBTP
  dsimp only
  rw [ht]
  dsimp only
  rw [hmt, if_pos rfl]
  rw [hu]
  dsimp only
  rw [hnum]
  have h0 : ¬ ((num : Int) = 0) := by exact_mod_cast hn0
  rw [if_neg h0]
  have hlen : ((a0 :: a1 :: rest).length : Int) - 2 = ((rest.length : Nat) : Int) := by
    simp only [List.length_cons]
    push_cast
    ring
  rw [hlen, tmod_coe]
  have heq : (((rest.length % num : Nat) : Int) = 0) := by exact_mod_cast hmod
  rw [if_neg (by simp [heq])]
  have hneg : ¬ ((num : Int) < 0 ∧ 2 < (a0 :: a1 :: rest).length) := by
    intro hc
    have := hc.1
    omega
  rw [if_neg hneg]
  have htn : ((num : Int)).toNat = num := Int.toNat_natCast num
  have hdrop : (a0 :: a1 :: rest).drop 2 = rest := rfl
  rw [htn, hdrop]
  cases invokeMulti (goChunk num rest) with
  | error e => rfl
  | ok rc =>
      dsimp only
      by_cases hs : rc.status ≠ ReceiptStatusSuccessful
      · rw [if_pos hs]; rfl
      · rw [if_neg hs]; rfl

/-- C3 (amended): for a multi-type message with positive decoded group
size `num`, if `num` does not divide the trailing-argument count the
format error is returned and no ledger call is attempted, and if it
does divide, the trailing arguments are forwarded to one
InvokeMultiInterchain call partitioned into `(len-2)/num` contiguous
groups of `num` elements each (for `num = 0` the code panics instead
of returning the format error, see the counterexample). -/
theorem submitIBTP_multi_partition (multiTy : Int)
    (invokeMulti : List (List Bytes) → Except String GoReceipt)
    (invokeSingle : List Bytes → Except String GoReceipt)
    (a0 a1 : Bytes) (rest : List Bytes) (t u num : Nat)
    (ht : beUint64 a0 = some t) (hmt : toInt64 t = multiTy)
    (hu : beUint64 a1 = some u) (hnum : toInt64 u = (num : Int)) (hpos : 1 ≤ num) :
    (¬ (num ∣ (a0 :: a1 :: rest).length - 2) →
        submitIBTP multiTy invokeMulti invokeSingle (a0 :: a1 :: rest)
          = SubmitOut.ret ⟨true, ""⟩ (some formatErrMsg) none)
    ∧ (num ∣ (a0 :: a1 :: rest).length - 2 →
        (submitIBTP multiTy invokeMulti invokeSingle (a0 :: a1 :: rest)).callRec
            = some (CallRec.multi (goChunk num rest))
        ∧ (goChunk num rest).length = ((a0 :: a1 :: rest).length - 2) / num
        ∧ (∀ g ∈ goChunk num rest, g.length = num)
        ∧ (goChunk num rest).flatten = rest) := by
  constructor
  · intro hndvd
    exact submitIBTP_format_branch multiTy invokeMulti invokeSingle a0 a1 rest t u num
      ht hmt hu hnum hpos hndvd
  · intro hdvd
    have h2 : (a0 :: a1 :: rest).length - 2 = rest.length := by
      simp only [List.length_cons]
      omega
    have hdvd2 : num ∣ rest.length := h2 ▸ hdvd
    obtain ⟨k, hk⟩ := hdvd2
    refine ⟨submitIBTP_multi_call_branch multiTy invokeMulti invokeSingle a0 a1 rest t u num
      ht hmt hu hnum hpos hdvd, ?_, goChunk_mem_length num k rest hk (by omega),
      goChunk_flatten num rest⟩
    rw [h2, hk, goChunk_length num k rest hk (by omega), Nat.mul_div_cancel_left k (by omega)]

/-- C3 witness: the spec scenario, a multi-type message with group size
2 and six trailing arguments, is forwarded as three groups of two. -/
theorem submitIBTP_multi_partition_witness :
    (submitIBTP 77 okInvokeMulti okInvokeSingle multiArgsSample).callRec
      = some (CallRec.multi [[[1], [2]], [[3], [4]], [[5], [6]]])
    ∧ (goChunk 2 ([[1], [2], [3], [4], [5], [6]] : List Bytes)).length = 3 := by
  have h := (submitIBTP_multi_partition 77 okInvokeMulti okInvokeSingle
      [0, 0, 0, 0, 0, 0, 0, 77] [0, 0, 0, 0, 0, 0, 0, 2] [[1], [2], [3], [4], [5], [6]] 77 2 2
      (by decide) (by decide) (by decide) (by decide) (by decide)).2 (by decide)
  exact ⟨h.1.trans (by simp [goChunk]), h.2.1.trans (by decide)⟩

/-- C3 counterexample: a multi-type message whose decoded group size is
zero and which carries one trailing argument, so that the trailing
count is not evenly divisible by the group size; the code panics on the
integer division by zero instead of returning the format error that the
claim promises for every non-divisible input. -/
theorem submitIBTP_zero_num_panics :
    submitIBTP 77 okInvokeMulti okInvokeSingle zeroNumArgs = SubmitOut.panicked
    ∧ ¬ ((0 : Nat) ∣ zeroNumArgs.length - 2) := by
  constructor
  · decide
  · decide

/-- C9: when SubmitIBTP rejects a multi-type message because the group
size does not divide the trailing-argument count, the non-nil format
error is returned together with a response whose Status field is still
true. -/
theorem submitIBTP_format_error_keeps_status_true (multiTy : Int)
    (invokeMulti : List (List Bytes) → Except String GoReceipt)
    (invokeSingle : List Bytes → Except String GoReceipt)
    (a0 a1 : Bytes) (rest : List Bytes) (t u num : Nat)
    (ht : beUint64 a0 = some t) (hmt : toInt64 t = multiTy)
    (hu : beUint64 a1 = some u) (hnum : toInt64 u = (num : Int)) (hpos : 1 ≤ num)
    (hndvd : ¬ (num ∣ (a0 :: a1 :: rest).length - 2)) :
    submitIBTP multiTy invokeMulti invokeSingle (a0 :: a1 :: rest)
      = SubmitOut.ret ⟨true, ""⟩ (some formatErrMsg) none :=
  submitIBTP_format_branch multiTy invokeMulti invokeSingle a0 a1 rest t u num
    ht hmt hu hnum hpos hndvd

/-- C9 witness: a multi-type message with group size 2 and three
trailing arguments returns the format error with `Status = true` and
no invoke performed. -/
theorem submitIBTP_format_error_keeps_status_true_witness :
    submitIBTP 77 okInvokeMulti okInvokeSingle badNumArgs
      = SubmitOut.ret ⟨true, ""⟩ (some formatErrMsg) none :=
  submitIBTP_format_error_keeps_status_true 77 okInvokeMulti okInvokeSingle
    [0, 0, 0, 0, 0, 0, 0, 77] [0, 0, 0, 0, 0, 0, 0, 2] [[1], [2], [3]] 77 2 2
    (by decide) (by decide) (by decide) (by decide) (by decide) (by decide)

/-- C1 counterexample: with minConfirm 5 and the best height dropping
from 100 at submission time to 50, the uint64 difference wraps past
minConfirm, so waitForConfirmed fetches and returns the receipt at the
very first re-poll although the chain has not advanced five blocks past
the submission height (50 < 100 + 5). -/
theorem waitForConfirmed_reorg_exits_early :
    waitForConfirmed 5 dropHeights constReceipt 3 = some (1, ⟨1⟩)
    ∧ dropHeights 1 < dropHeights 0 + 5 := by
  constructor
  · decide
  · decide

/-- For a value below 2^63 the Go int64 reinterpretation is the value
itself. -/
theorem toInt64_small (h : Nat) (hh : h < 2 ^ 63) : toInt64 h = (h : Int) := by
  unfold toInt64
  have hm : h % 2 ^ 64 = h := Nat.mod_eq_of_lt (by omega)
  rw [hm, if_pos hh]

/-- A consecutive range is a +1 chain. -/
theorem chain_succ_range_nat (n : Nat) : ∀ s : Nat,
    List.Chain' (fun x y : Nat => y = x + 1) (List.range' s n) := by
  induction n with
  | zero => intro s; simp
  | succ n ih =>
      intro s
      cases n with
      | zero => simp [List.range']
      | succ m =>
          have h2 : List.range' s (m + 2) = s :: List.range' (s + 1) (m + 1) := rfl
          rw [h2, List.chain'_cons']
          refine ⟨?_, ih (s + 1)⟩
          intro y hy
          have h3 : List.range' (s + 1) (m + 1) = (s + 1) :: List.range' (s + 2) m := rfl
          rw [h3] at hy
          cases hy
          rfl

/-- A header list whose numbers form a consecutive range is a chain in
which every element's number is one greater than its predecessor's. -/
theorem chain_of_map_number (l : List Header) (s n : Nat)
    (h : l.map Header.number = List.range' s n) :
    List.Chain' (fun a b => b.number = a.number + 1) l := by
  have hc : List.Chain' (fun x y : Nat => y = x + 1) (l.map Header.number) := by
    rw [h]
    exact chain_succ_range_nat n s
  exact (List.chain'_map Header.number).mp hc

/-- The listener's inner loop starting at currentNum = cur for `n`
counter values pushes exactly the headers of heights cur .. cur+n-1 in
order and ends with currentNum = cur + n, provided the node returns
the header of the requested height for heights below 2^63. -/
theorem listenFetchGo_eq (getHeader : Int → Header)
    (hget : ∀ h : Nat, h < 2 ^ 63 → (getHeader (h : Int)).number = h) :
    ∀ (n cur : Nat), cur + n ≤ 2 ^ 63 →
      (listenFetchGo getHeader cur n).1.map Header.number = List.range' cur n
      ∧ (listenFetchGo getHeader cur n).2 = cur + n := by
  intro n
  induction n with
  | zero => intro cur _; simp [listenFetchGo, List.range']
  | succ n ih =>
      intro cur hb
      obtain ⟨ha, hc⟩ := ih (cur + 1) (by omega)
      simp only [listenFetchGo, List.map_cons, ha, hc]
      rw [toInt64_small cur (by omega), hget cur (by omega)]
      exact ⟨rfl, by omega⟩

/-- C5 (amended): on each listener tick the loop counter runs from
currentNum+1 up to the uint64 difference latestHeight - Threshold
(which wraps on underflow), but each iteration fetches the header at
height currentNum — one below the counter — pushes it onto the
header-receive channel, and only then advances currentNum; hence the
headers pushed are exactly those of heights currentNum through
latestHeight - Threshold - 1 in increasing order, currentNum ends
advanced by the number of headers pushed, and every pushed header has
block number one greater than the previously pushed one. -/
theorem listenTickGo_headers (getHeader : Int → Header) (cur latest threshold : Nat)
    (hget : ∀ h : Nat, h < 2 ^ 63 → (getHeader (h : Int)).number = h)
    (hbound : cur + (sub64 latest threshold - cur) ≤ 2 ^ 63) :
    (listenTickGo getHeader cur latest threshold).1.map Header.number
        = List.range' cur (sub64 latest threshold - cur)
    ∧ (listenTickGo getHeader cur latest threshold).2
        = cur + (listenTickGo getHeader cur latest threshold).1.length
    ∧ List.Chain' (fun a b => b.number = a.number + 1)
        (listenTickGo getHeader cur latest threshold).1 := by
  obtain ⟨h1, h2⟩ := listenFetchGo_eq getHeader hget (sub64 latest threshold - cur) cur hbound
  unfold listenTickGo
  refine ⟨h1, ?_, chain_of_map_number _ _ _ h1⟩
  rw [h2]
  have hlen : (listenFetchGo getHeader cur (sub64 latest threshold - cur)).1.length
      = sub64 latest threshold - cur := by
    have hl := congrArg List.length h1
    simpa using hl
  rw [hlen]

/-- C5 witness: with currentNum 3, latest height 10 and threshold 2,
the tick pushes the contiguous ascending headers of heights 3..7 and
ends with currentNum 8. -/
theorem listenTickGo_headers_witness :
    (listenTickGo idHeaderOracle 3 10 2).1.map Header.number
        = List.range' 3 (sub64 10 2 - 3)
    ∧ (listenTickGo idHeaderOracle 3 10 2).2
        = 3 + (listenTickGo idHeaderOracle 3 10 2).1.length
    ∧ List.Chain' (fun a b => b.number = a.number + 1)
        (listenTickGo idHeaderOracle 3 10 2).1 :=
  listenTickGo_headers idHeaderOracle 3 10 2
    (fun h hh => by simp [idHeaderOracle]) (by decide)

/-- C5 counterexample: with currentNum 3, latest height 10 and
threshold 2, the loop counter ranges over 4..8 but the headers pushed
are those of heights 3..7 — each fetched at height currentNum, one
below the counter — so the pushed headers are not the headers of the
heights currentNum+1 .. latestHeight - Threshold that the claim says
are fetched. -/
theorem listenTick_pushes_lagging_heights :
    (listenTickGo idHeaderOracle 3 10 2).1.map Header.number = [3, 4, 5, 6, 7]
    ∧ (listenTickGo idHeaderOracle 3 10 2).1.map Header.number
        ≠ List.range' (3 + 1) (sub64 10 2 - 3) := by
  constructor
  · decide
  · decide

/-- C6: every batch the poster loop posts on the metadata channel is
non-empty, filterLog is applied to exactly that batch before it is
posted, the buffer is reset to empty right after an emission, and any
event on an empty buffer (in particular a tick) emits nothing. -/
theorem postStep_batches (buffer : List Header) (ev : PoolEvent) :
    (∀ batch, (postStep buffer ev).emitted = some batch →
        batch ≠ [] ∧ (postStep buffer ev).buffer = []
        ∧ (postStep buffer ev).filtered = some batch)
    ∧ (buffer = [] → (postStep buffer ev).emitted = none) := by
  constructor
  · intro batch h
    cases ev with
    | recv hd => simp [postStep] at h
    | tick =>
        by_cases hb : buffer.isEmpty
        · simp [postStep, hb] at h
        · simp only [postStep, hb, Bool.false_eq_true, if_false, Option.some.injEq] at h
          subst h
          refine ⟨fun hc => by simp [hc] at hb, ?_, ?_⟩
          · simp [postStep, hb]
          · simp [postStep, hb]
  · intro hb
    subst hb
    cases ev <;> simp [postStep]

/-- C6 witness: a tick on the one-header buffer posts that non-empty
batch, applies filterLog to it, and resets the buffer. -/
theorem postStep_batches_witness :
    (([⟨3⟩] : List Header) ≠ [] ∧ (postStep [⟨3⟩] PoolEvent.tick).buffer = []
      ∧ (postStep [⟨3⟩] PoolEvent.tick).filtered = some [⟨3⟩]) :=
  (postStep_batches [⟨3⟩] PoolEvent.tick).1 [⟨3⟩] rfl

/-- If every shard handled by the remaining `n` iterations (indices
`i` to `i + n - 1`) reads successfully and its output write succeeds,
the shard loop appends the concatenation of those shards in order. -/
theorem reassembleSteps_ok (store : String → Option Bytes) (writeOk : Nat → Bool)
    (dir f t : String) (idx size : Nat) (shard : Nat → Bytes) :
    ∀ (n i : Nat) (acc : Bytes) (ops : List FileOp),
      (∀ j, i ≤ j → j < i + n →
          store (joinPath dir (mkShardName f t idx j size)) = some (shard j)
          ∧ writeOk j = true) →
      (reassembleSteps store writeOk dir f t idx size n i acc ops).1
        = Except.ok (acc ++ ((List.range' i n).map shard).flatten) := by
  intro n
  induction n with
  | zero => intro i acc ops _; simp [reassembleSteps, List.range']
  | succ n ih =>
      intro i acc ops hall
      have hi := hall i (Nat.le_refl i) (by omega)
      simp only [reassembleSteps]
      rw [hi.1]
      dsimp only
      rw [if_pos hi.2]
      rw [ih (i + 1) (acc ++ shard i) _ (fun j h1 h2 => hall j (by omega) (by omega))]
      have hr : List.range' i (n + 1) = i :: List.range' (i + 1) n := rfl
      rw [hr, List.map_cons, List.flatten_cons, List.append_assoc]

/-- If some shard within the remaining iterations fails to read, or
its output write fails, while every earlier shard succeeds, the shard
loop returns an error. -/
theorem reassembleSteps_abort (store : String → Option Bytes) (writeOk : Nat → Bool)
    (dir f t : String) (idx size : Nat) (shard : Nat → Bytes) :
    ∀ (n i : Nat) (acc : Bytes) (ops : List FileOp) (j : Nat), i ≤ j → j < i + n →
      (∀ m, i ≤ m → m < j →
          store (joinPath dir (mkShardName f t idx m size)) = some (shard m)
          ∧ writeOk m = true) →
      (store (joinPath dir (mkShardName f t idx j size)) = none ∨ writeOk j = false) →
      ∃ emsg, (reassembleSteps store writeOk dir f t idx size n i acc ops).1
        = Except.error emsg := by
  intro n
  induction n with
  | zero => intro i acc ops j h1 h2 _ _; omega
  | succ n ih =>
      intro i acc ops j h1 h2 hpre hfail
      by_cases hij : i = j
      · subst hij
        cases hs : store (joinPath dir (mkShardName f t idx i size)) with
        | none =>
            refine ⟨"open shard " ++ joinPath dir (mkShardName f t idx i size), ?_⟩
            simp only [reassembleSteps]
            rw [hs]
        | some d =>
            have hw : writeOk i = false := by
              rcases hfail with hn | hw
              · rw [hs] at hn; exact Option.noConfusion hn
              · exact hw
            refine ⟨"write shard " ++ joinPath dir (mkShardName f t idx i size), ?_⟩
            simp only [reassembleSteps]
            rw [hs]
            dsimp only
            rw [if_neg (by simp [hw])]
      · have hlt : i < j := by omega
        have hi := hpre i (Nat.le_refl i) hlt
        obtain ⟨emsg, he⟩ := ih (i + 1) (acc ++ shard i)
          (ops ++ [FileOp.readShard (joinPath dir (mkShardName f t idx i size)),
            FileOp.writeOut (shard i)]) j (by omega) (by omega)
          (fun m hm1 hm2 => hpre m (by omega) hm2) hfail
        refine ⟨emsg, ?_⟩
        simp only [reassembleSteps]
        rw [hi.1]
        dsimp only
        rw [if_pos hi.2]
        exact he

/-- C7: for a success response, if all shards 1..shardSize read
successfully and every output write succeeds, the output byte sequence
equals the concatenation of shard 1 through shard shardSize in order;
and if some shard read or output write fails while all earlier ones
succeeded, the reassembly aborts with an error. -/
theorem offchain_reassembly (offChainPath now : String) (store : String → Option Bytes)
    (writeOk : Nat → Bool) (resp : OffChainResponse) (shard : Nat → Bytes)
    (hty : resp.typ = RespType.success) (hN : 1 ≤ resp.shardSize) :
    ((∀ i, 1 ≤ i → i ≤ resp.shardSize →
        store (joinPath resp.dataDir
            (mkShardName resp.fromS resp.toS resp.index i resp.shardSize))
          = some (shard i) ∧ writeOk i = true) →
      (submitOffChainData offChainPath now store writeOk true resp).1
        = Except.ok (((List.range' 1 resp.shardSize).map shard).flatten))
    ∧ (∀ j, 1 ≤ j → j ≤ resp.shardSize →
        (∀ m, 1 ≤ m → m < j →
          store (joinPath resp.dataDir
              (mkShardName resp.fromS resp.toS resp.index m resp.shardSize))
            = some (shard m) ∧ writeOk m = true) →
        (store (joinPath resp.dataDir
            (mkShardName resp.fromS resp.toS resp.index j resp.shardSize)) = none
          ∨ writeOk j = false) →
        ∃ emsg, (submitOffChainData offChainPath now store writeOk true resp).1
          = Except.error emsg) := by
  obtain ⟨ty, msg, f, t, idx, size, dir⟩ := resp
  dsimp only at hty hN ⊢
  subst hty
  simp only [submitOffChainData, if_pos rfl]
  constructor
  · intro hall
    exact reassembleSteps_ok store writeOk dir f t idx size shard size 1 []
      [FileOp.openOut (joinPath offChainPath (msg ++ "-" ++ now))]
      (fun j hj1 hj2 => hall j hj1 (by omega))
  · intro j hj1 hj2 hpre hfail
    exact reassembleSteps_abort store writeOk dir f t idx size shard size 1 []
      [FileOp.openOut (joinPath offChainPath (msg ++ "-" ++ now))] j hj1 (by omega)
      hpre hfail

/-- C7 witness: the sample two-shard transfer reassembles to the
concatenation of shard 1 and shard 2. -/
theorem offchain_reassembly_witness :
    (submitOffChainData "op" "ts" shardStoreSample allWrites true offRespSample).1
      = Except.ok [1, 2, 3] := by
  have h := (offchain_reassembly "op" "ts" shardStoreSample allWrites offRespSample shardSample
      rfl (by decide)).1 ?_
  · exact h.trans (congrArg Except.ok (by decide))
  · intro i h1 h2
    dsimp only [offRespSample] at h2 ⊢
    interval_cases i
    · exact ⟨by decide, rfl⟩
    · exact ⟨by decide, rfl⟩

/-- C8: for every response whose outcome tag is not the success value,
SubmitOffChainData performs no file operation and returns the error
made of the outcome tag and the response message joined by a colon. -/
theorem offchain_failure_no_ops (offChainPath now : String) (store : String → Option Bytes)
    (writeOk : Nat → Bool) (openOutOk : Bool) (resp : OffChainResponse) (tag : String)
    (h : resp.typ = RespType.failure tag) :
    submitOffChainData offChainPath now store writeOk openOutOk resp
      = (Except.error (tag ++ ":" ++ resp.msg), []) := by
  obtain ⟨ty, msg, f, t, idx, size, dir⟩ := resp
  dsimp only at h ⊢
  subst h
  rfl

/-- C8 witness: outcome "failure" with message "disk full" yields the
propagated error "failure:disk full" and an empty file-operation
trace. -/
theorem offchain_failure_no_ops_witness :
    (submitOffChainData "op" "ts" shardStoreSample allWrites true failRespSample).1
      = Except.error ("failure:disk full")
    ∧ (submitOffChainData "op" "ts" shardStoreSample allWrites true failRespSample).2 = [] := by
  have h := offchain_failure_no_ops "op" "ts" shardStoreSample allWrites true failRespSample
    ("failure") rfl
  exact ⟨(congrArg Prod.fst h).trans (congrArg Except.error (by decide)), congrArg Prod.snd h⟩

end PierClientEth
